import Mathlib

/-!
# Motionlize: shallow embedding of the frame-indexed evaluation engine

Verification development for the Motionlize renderer
(wengxiaoxiong/Motionlize).  The embedding follows the source files:

* `src/types.ts` — the data model
* `src/components/RemotionVideo/Composition.tsx` — `MainComposition`
  (timeline sequencer) and one variant of `TechScene` (here `TechSceneA`)
* `src/components/RemotionVideo/TechScene.tsx` (src/unnamed/part_000) —
  the cyberpunk variant of `TechScene` (here `TechSceneB`)
* `src/components/RemotionVideo/Scene.tsx` — the scene state evaluator

Frames are integers (`ℤ`), pixel and percentage coordinates are exact
rationals (`ℚ`), and spring-driven animation values are reals (`ℝ`).
Remotion library functions used by the source (`interpolate`, `spring`,
the `Sequence` activation window) are embedded from their documented
semantics; `spring` is modelled from the specification (see below).
-/

namespace Motionlize

/-! ## Data model (src/types.ts) -/

/-- `DiagramNode` (src/types.ts).  `type` is the `NodeType` string union;
`x`, `y` are percentage coordinates in [0,100]. -/
structure DiagramNode where
  id : String
  type : String
  label : String
  x : ℚ
  y : ℚ
  color : Option String
deriving DecidableEq

/-- `DiagramEdge` (src/types.ts): node-id references plus optional label
and color. -/
structure DiagramEdge where
  fromId : String
  toId : String
  label : Option String
  color : Option String
deriving DecidableEq

/-- The `DiagramAction.type` string union.  `pulse` appears in the
cyberpunk variant (part_000/part_001). -/
inductive ActionType where
  | packet
  | highlight
  | show_label
  | pulse
deriving DecidableEq

/-- `DiagramAction` (src/types.ts): a timed effect with optional node-id
references. -/
structure DiagramAction where
  type : ActionType
  startDelay : ℤ
  duration : ℤ
  fromId : Option String
  toId : Option String
  targetId : Option String
  label : Option String
  color : Option String
deriving DecidableEq

/-- `DiagramConfig` (src/types.ts).  The TS type declares the three lists
as required, but every consumer defends against their absence
(`diagramConfig.nodes || []` in both TechScene variants and in
geminiService), so each list is embedded as optional. -/
structure DiagramConfig where
  nodes : Option (List DiagramNode)
  edges : Option (List DiagramEdge)
  actions : Option (List DiagramAction)
deriving DecidableEq

/-- `SceneData.type` (src/types.ts). -/
inductive SceneType where
  | intro
  | bullet_point
  | quote
  | outro
  | tech_diagram
deriving DecidableEq

/-- `SceneData` (src/types.ts). -/
structure SceneData where
  title : String
  subtitle : String
  backgroundColor : String
  textColor : String
  durationInFrames : ℤ
  type : SceneType
  diagramConfig : Option DiagramConfig
deriving DecidableEq

/-- The canvas context delivered by remotion's `useVideoConfig`. -/
structure Canvas where
  width : ℚ
  height : ℚ
  fps : ℚ
deriving DecidableEq

/-- `VideoConfig` (src/types.ts). -/
structure VideoConfig where
  topic : String
  musicMood : String
  totalDuration : ℤ
  scenes : List SceneData
  width : ℚ
  height : ℚ
  fps : ℚ
deriving DecidableEq

/-! ## Interpolation utilities (remotion `interpolate`, two-point range)

Remotion's `interpolate(v, [x0, x1], [y0, y1])` with default (extend)
extrapolation is the affine map `y0 + (v - x0) * (y1 - y0) / (x1 - x0)`.
The source applies it both to exact rational data (packet positions,
where the progress input is already clamped by hand) and to real-valued
spring outputs, so the embedding has a `ℚ` and an `ℝ` version. -/

/-- Two-point remotion `interpolate` over `ℚ`. -/
def interpolateQ (v x0 x1 y0 y1 : ℚ) : ℚ :=
  y0 + (v - x0) * (y1 - y0) / (x1 - x0)

/-- Two-point remotion `interpolate` over `ℝ`. -/
noncomputable def interpolateR (v x0 x1 y0 y1 : ℝ) : ℝ :=
  y0 + (v - x0) * (y1 - y0) / (x1 - x0)

/-- Percentage-to-pixel mapping `toPx` (both TechScene variants):
`(pct / 100) * dim`. -/
def toPx (pct dim : ℚ) : ℚ := pct / 100 * dim

/-! ## Spring model

Modelled from the spec: remotion's `spring` function is a library import
(`from 'remotion'`), its implementation is not under src/.  Per spec
§4.2 it is a deterministic damped harmonic oscillator released from rest
at progress 0 with target 1, a pure function of the elapsed frame count,
the fps, and the physical parameters `{stiffness, damping, mass}`
(remotion defaults: stiffness 100, damping 10, mass 1).  For
`elapsed <= 0` the progress is exactly 0.  The parameterization is
critically/over-damped when `damping^2 >= 4 * stiffness * mass`; in that
regime the closed-form progress is `1 - exp(-w*t) * (1 + w*t)` with
`w = sqrt(stiffness / mass)` and `t = elapsed / fps`; in the
under-damped regime the oscillatory closed form applies. -/

/-- Physical parameters of a spring (remotion `SpringConfig`). -/
structure SpringConfig where
  stiffness : ℝ
  damping : ℝ
  mass : ℝ

/-- Undamped angular frequency `sqrt(stiffness / mass)`. -/
noncomputable def springOmega (cfg : SpringConfig) : ℝ :=
  Real.sqrt (cfg.stiffness / cfg.mass)

/-- Damping ratio `damping / (2 * sqrt(stiffness * mass))`. -/
noncomputable def springZeta (cfg : SpringConfig) : ℝ :=
  cfg.damping / (2 * Real.sqrt (cfg.stiffness * cfg.mass))

/-- Damped angular frequency (under-damped regime). -/
noncomputable def springOmegaD (cfg : SpringConfig) : ℝ :=
  springOmega cfg * Real.sqrt (1 - springZeta cfg ^ 2)

/-- Modelled from the spec: remotion `spring` progress at `elapsed`
frames (spec §4.2). -/
noncomputable def spring (cfg : SpringConfig) (fps elapsed : ℝ) : ℝ :=
  if elapsed ≤ 0 then 0
  else if 4 * cfg.stiffness * cfg.mass ≤ cfg.damping ^ 2 then
    1 - Real.exp (-(springOmega cfg * (elapsed / fps))) *
      (1 + springOmega cfg * (elapsed / fps))
  else
    1 - Real.exp (-(springZeta cfg * springOmega cfg * (elapsed / fps))) *
      (Real.cos (springOmegaD cfg * (elapsed / fps)) +
        springZeta cfg * springOmega cfg / springOmegaD cfg *
          Real.sin (springOmegaD cfg * (elapsed / fps)))

/-! ## Node lookup

Both TechScene variants resolve node-id references with
`nodes.find(n => n.id === someId)`. -/

/-- `nodes.find(n => n.id === nid)`. -/
def resolve (nodes : List DiagramNode) (nid : String) : Option DiagramNode :=
  nodes.find? (fun n => n.id == nid)

/-! ## TechScene, variant A

The `TechScene` component defined inside
src/components/RemotionVideo/Composition.tsx.  Per-frame render state is
split by aspect, mirroring the component's render expressions: edge
lines, node transforms, and the `actions.map` loop (packets and popup
labels). -/

namespace TechSceneA

/-- Rendered state of one edge line (`edges.map` loop). -/
structure EdgeState where
  x1 : ℚ
  y1 : ℚ
  x2 : ℚ
  y2 : ℚ
  opacity : ℝ
  stroke : String
  label : Option String

/-- One entry of the `edges.map` loop: both endpoints must resolve,
opacity is the staggered entrance spring (`config: {damping: 200}`,
stagger `i * 5`) interpolated into `[0, 0.5]`. -/
noncomputable def edgeEntry (data : SceneData) (nodes : List DiagramNode)
    (frame : ℤ) (c : Canvas) (i : ℕ) (edge : DiagramEdge) : Option EdgeState :=
  match resolve nodes edge.fromId, resolve nodes edge.toId with
  | some a, some b =>
    some { x1 := toPx a.x c.width
           y1 := toPx a.y c.height
           x2 := toPx b.x c.width
           y2 := toPx b.y c.height
           opacity := interpolateR
             (spring ⟨100, 200, 1⟩ (c.fps : ℝ) ((frame : ℝ) - i * 5)) 0 1 0 0.5
           stroke := edge.color.getD data.textColor
           label := edge.label }
  | _, _ => none

/-- All edge-line states, in declaration order (the stagger index is the
positional index in `edges`). -/
noncomputable def edgeStates (data : SceneData) (nodes : List DiagramNode)
    (edges : List DiagramEdge) (frame : ℤ) (c : Canvas) : List EdgeState :=
  edges.enum.filterMap fun p => edgeEntry data nodes frame c p.1 p.2

/-- The `actions.find` that decides whether a node is highlighted:
`a.type === 'highlight' && a.targetId === node.id &&
frame >= a.startDelay && frame < a.startDelay + a.duration`. -/
def activeHighlight (actions : List DiagramAction) (node : DiagramNode)
    (frame : ℤ) : Option DiagramAction :=
  actions.find? fun a =>
    a.type == ActionType.highlight && a.targetId == some node.id &&
      decide (a.startDelay ≤ frame) && decide (frame < a.startDelay + a.duration)

/-- Pop-in entrance scale of node `i`:
`interpolate(spring({frame: frame - i*10, fps, config: {stiffness: 200,
damping: 15}}), [0,1], [0,1])`. -/
noncomputable def entranceScale (frame : ℤ) (c : Canvas) (i : ℕ) : ℝ :=
  interpolateR (spring ⟨200, 15, 1⟩ (c.fps : ℝ) ((frame : ℝ) - i * 10)) 0 1 0 1

/-- Final node scale: the entrance scale times `1.2` when a highlight is
active, times `1.0` otherwise. -/
noncomputable def nodeScale (actions : List DiagramAction) (node : DiagramNode)
    (frame : ℤ) (c : Canvas) (i : ℕ) : ℝ :=
  entranceScale frame c i *
    (if (activeHighlight actions node frame).isSome then 1.2 else 1.0)

/-- Rendered state of one node. -/
structure NodeState where
  x : ℚ
  y : ℚ
  scale : ℝ
  highlighted : Bool
  color : String
  label : String

/-- One entry of the `nodes.map` loop. -/
noncomputable def nodeEntry (data : SceneData) (actions : List DiagramAction)
    (frame : ℤ) (c : Canvas) (i : ℕ) (node : DiagramNode) : NodeState :=
  { x := toPx node.x c.width
    y := toPx node.y c.height
    scale := nodeScale actions node frame c i
    highlighted := (activeHighlight actions node frame).isSome
    color := node.color.getD data.textColor
    label := node.label }

/-- All node states, in declaration order. -/
noncomputable def nodeStates (data : SceneData) (nodes : List DiagramNode)
    (actions : List DiagramAction) (frame : ℤ) (c : Canvas) : List NodeState :=
  nodes.enum.map fun p => nodeEntry data actions frame c p.1 p.2

/-- Rendered state of a packet (`DATA` pill). -/
structure PacketState where
  x : ℚ
  y : ℚ
  color : String
  label : String
deriving DecidableEq

/-- Rendered state of a `show_label` popup. -/
structure LabelState where
  x : ℚ
  y : ℚ
  scale : ℝ
  color : String
  label : Option String

/-- One transient effect produced by the `actions.map` loop. -/
inductive ActionEffect where
  | packet (p : PacketState)
  | label (l : LabelState)

/-- One entry of the `actions.map` loop, mirroring its early returns:
frames before `startDelay` render nothing; packets additionally vanish
for `frame > startDelay + duration`; a packet needs `fromId`/`toId`
present and resolvable, a popup label needs `targetId` resolvable;
`highlight` actions produce no independent visual. -/
noncomputable def actionEntry (nodes : List DiagramNode) (frame : ℤ)
    (c : Canvas) (a : DiagramAction) : Option ActionEffect :=
  if frame < a.startDelay then none
  else if a.startDelay + a.duration < frame ∧ a.type = ActionType.packet then none
  else if a.type = ActionType.packet then
    match a.fromId, a.toId with
    | some fid, some tid =>
      match resolve nodes fid, resolve nodes tid with
      | some fromN, some toN =>
        let p : ℚ := ((frame - a.startDelay : ℤ) : ℚ) / (a.duration : ℚ)
        let progress : ℚ := min (max p 0) 1
        some (.packet
          { x := interpolateQ progress 0 1 (toPx fromN.x c.width) (toPx toN.x c.width)
            y := interpolateQ progress 0 1 (toPx fromN.y c.height) (toPx toN.y c.height)
            color := a.color.getD "#ffffff"
            label := a.label.getD "DATA" })
      | _, _ => none
    | _, _ => none
  else if a.type = ActionType.show_label then
    match a.targetId with
    | some tid =>
      match resolve nodes tid with
      | some target =>
        let baseSize : ℚ := min c.width c.height * (6 / 100)
        some (.label
          { x := toPx target.x c.width + baseSize
            y := toPx target.y c.height - baseSize
            scale := spring ⟨150, 10, 1⟩ (c.fps : ℝ) ((frame : ℝ) - (a.startDelay : ℝ))
            color := a.color.getD "#10B981"
            label := a.label })
      | none => none
    | none => none
  else none

/-- All transient action effects at `frame`, in declaration order. -/
noncomputable def actionEffects (nodes : List DiagramNode)
    (actions : List DiagramAction) (frame : ℤ) (c : Canvas) : List ActionEffect :=
  actions.filterMap (actionEntry nodes frame c)

/-- Full per-frame render description of the variant-A TechScene. -/
structure TechRender where
  edges : List EdgeState
  nodes : List NodeState
  effects : List ActionEffect
  background : String
  title : String
  subtitle : String

/-- `TechScene` (Composition.tsx): `if (!data.diagramConfig) return null`,
otherwise the three lists default to `[]` and every aspect is evaluated
at the current frame. -/
noncomputable def evaluate (data : SceneData) (frame : ℤ) (c : Canvas) :
    Option TechRender :=
  match data.diagramConfig with
  | none => none
  | some cfg =>
    let nodes := cfg.nodes.getD []
    let edges := cfg.edges.getD []
    let actions := cfg.actions.getD []
    some { edges := edgeStates data nodes edges frame c
           nodes := nodeStates data nodes actions frame c
           effects := actionEffects nodes actions frame c
           background := data.backgroundColor
           title := data.title
           subtitle := data.subtitle }

end TechSceneA

/-! ## TechScene, variant B

The cyberpunk `TechScene` of src/unnamed/part_000
(src/components/RemotionVideo/TechScene.tsx, the variant imported by
Scene.tsx).  Packets and popup labels live in two separate `actions.map`
loops in this variant. -/

namespace TechSceneB

/-- Rendered state of one edge line. -/
structure EdgeState where
  x1 : ℚ
  y1 : ℚ
  x2 : ℚ
  y2 : ℚ
  opacity : ℝ
  stroke : String
  label : Option String

/-- One entry of the `edges.map` loop: both endpoints must resolve,
opacity is the staggered reveal spring (`config: {stiffness: 50}`,
stagger `i * 3`) interpolated into `[0, 0.4]`. -/
noncomputable def edgeEntry (data : SceneData) (nodes : List DiagramNode)
    (frame : ℤ) (c : Canvas) (i : ℕ) (edge : DiagramEdge) : Option EdgeState :=
  match resolve nodes edge.fromId, resolve nodes edge.toId with
  | some a, some b =>
    some { x1 := toPx a.x c.width
           y1 := toPx a.y c.height
           x2 := toPx b.x c.width
           y2 := toPx b.y c.height
           opacity := interpolateR
             (spring ⟨50, 10, 1⟩ (c.fps : ℝ) ((frame : ℝ) - i * 3)) 0 1 0 0.4
           stroke := edge.color.getD data.textColor
           label := edge.label }
  | _, _ => none

/-- All edge-line states, in declaration order. -/
noncomputable def edgeStates (data : SceneData) (nodes : List DiagramNode)
    (edges : List DiagramEdge) (frame : ℤ) (c : Canvas) : List EdgeState :=
  edges.enum.filterMap fun p => edgeEntry data nodes frame c p.1 p.2

/-- The `actions.find` that decides whether a node is emphasized:
`(a.type === 'highlight' || a.type === 'pulse') && a.targetId === node.id
&& frame >= a.startDelay && frame < a.startDelay + a.duration`. -/
def activeAction (actions : List DiagramAction) (node : DiagramNode)
    (frame : ℤ) : Option DiagramAction :=
  actions.find? fun a =>
    (a.type == ActionType.highlight || a.type == ActionType.pulse) &&
      a.targetId == some node.id &&
      decide (a.startDelay ≤ frame) && decide (frame < a.startDelay + a.duration)

/-- Entrance scale of node `i`:
`interpolate(spring({frame: frame - i*5, fps, config: {stiffness: 100,
damping: 12}}), [0,1], [0,1])`. -/
noncomputable def entranceScale (frame : ℤ) (c : Canvas) (i : ℕ) : ℝ :=
  interpolateR (spring ⟨100, 12, 1⟩ (c.fps : ℝ) ((frame : ℝ) - i * 5)) 0 1 0 1

/-- Final node scale: the entrance scale, plus `0.15` when a highlight or
pulse action is active on the node, plus the pulse oscillation
`sin((frame - startDelay) * 0.5) * 0.1` when that action is a pulse. -/
noncomputable def nodeScale (actions : List DiagramAction) (node : DiagramNode)
    (frame : ℤ) (c : Canvas) (i : ℕ) : ℝ :=
  match activeAction actions node frame with
  | none => entranceScale frame c i
  | some a =>
    entranceScale frame c i + 0.15 +
      (if a.type = ActionType.pulse then
        Real.sin (((frame : ℝ) - (a.startDelay : ℝ)) * 0.5) * 0.1
      else 0)

/-- Rendered state of one node. -/
structure NodeState where
  x : ℚ
  y : ℚ
  scale : ℝ
  glowing : Bool
  color : String
  label : String

/-- One entry of the `nodes.map` loop (default node color `#3b82f6`,
label displayed upper-cased). -/
noncomputable def nodeEntry (actions : List DiagramAction)
    (frame : ℤ) (c : Canvas) (i : ℕ) (node : DiagramNode) : NodeState :=
  { x := toPx node.x c.width
    y := toPx node.y c.height
    scale := nodeScale actions node frame c i
    glowing := (activeAction actions node frame).isSome
    color := node.color.getD "#3b82f6"
    label := node.label.toUpper }

/-- All node states, in declaration order. -/
noncomputable def nodeStates (nodes : List DiagramNode)
    (actions : List DiagramAction) (frame : ℤ) (c : Canvas) : List NodeState :=
  nodes.enum.map fun p => nodeEntry actions frame c p.1 p.2

/-- Rendered state of one packet (glowing orb with optional label). -/
structure Packet where
  x : ℚ
  y : ℚ
  color : String
  label : Option String
deriving DecidableEq

/-- One entry of the packets `actions.map` loop, mirroring its early
returns: non-packets and packets without `fromId`/`toId` render nothing;
frames with `frame < startDelay` or `frame > startDelay + duration`
render nothing; unresolvable endpoints render nothing; otherwise the
position is the linear interpolation of the endpoint anchors by the
clamped progress `(frame - startDelay) / duration`. -/
def packetEntry (nodes : List DiagramNode) (frame : ℤ) (c : Canvas)
    (a : DiagramAction) : Option Packet :=
  match a.fromId, a.toId with
  | some fid, some tid =>
    if a.type ≠ ActionType.packet then none
    else if frame < a.startDelay then none
    else if a.startDelay + a.duration < frame then none
    else
      match resolve nodes fid, resolve nodes tid with
      | some fromN, some toN =>
        let rawProgress : ℚ := ((frame - a.startDelay : ℤ) : ℚ) / (a.duration : ℚ)
        let progress : ℚ := min (max rawProgress 0) 1
        some { x := interpolateQ progress 0 1 (toPx fromN.x c.width) (toPx toN.x c.width)
               y := interpolateQ progress 0 1 (toPx fromN.y c.height) (toPx toN.y c.height)
               color := a.color.getD "#fff"
               label := a.label }
      | _, _ => none
  | _, _ => none

/-- All packet states at `frame`, in declaration order. -/
def packetStates (nodes : List DiagramNode) (actions : List DiagramAction)
    (frame : ℤ) (c : Canvas) : List Packet :=
  actions.filterMap (packetEntry nodes frame c)

/-- Rendered state of one `show_label` popup. -/
structure LabelState where
  x : ℚ
  y : ℚ
  scale : ℝ
  color : String
  label : Option String

/-- One entry of the popup-labels `actions.map` loop: needs type
`show_label`, a resolvable `targetId`, and `frame >= startDelay`; the
pop scale is `spring({frame: frame - startDelay, fps,
config: {stiffness: 200}})`; there is no upper frame bound. -/
noncomputable def labelEntry (nodes : List DiagramNode) (frame : ℤ)
    (c : Canvas) (a : DiagramAction) : Option LabelState :=
  match a.targetId with
  | some tid =>
    if a.type ≠ ActionType.show_label then none
    else if frame < a.startDelay then none
    else
      match resolve nodes tid with
      | some target =>
        let baseSize : ℚ := min c.width c.height * (6 / 100)
        some { x := toPx target.x c.width
               y := toPx target.y c.height - baseSize * 2
               scale := spring ⟨200, 10, 1⟩ (c.fps : ℝ) ((frame : ℝ) - (a.startDelay : ℝ))
               color := a.color.getD "#10b981"
               label := a.label }
      | none => none
  | none => none

/-- All popup-label states at `frame`, in declaration order. -/
noncomputable def labelStates (nodes : List DiagramNode)
    (actions : List DiagramAction) (frame : ℤ) (c : Canvas) : List LabelState :=
  actions.filterMap (labelEntry nodes frame c)

/-- Full per-frame render description of the variant-B TechScene.
`gridShift` is the moving-grid background offset `frame % 80`. -/
structure TechRender where
  edges : List EdgeState
  nodes : List NodeState
  packets : List Packet
  labels : List LabelState
  gridShift : ℤ
  background : String
  title : String
  subtitle : String

/-- `TechScene` (part_000): `if (!data.diagramConfig) return null`,
otherwise the three lists default to `[]` (destructuring defaults) and
every aspect is evaluated at the current frame.  The background color
defaults to `#0f172a`. -/
noncomputable def evaluate (data : SceneData) (frame : ℤ) (c : Canvas) :
    Option TechRender :=
  match data.diagramConfig with
  | none => none
  | some cfg =>
    let nodes := cfg.nodes.getD []
    let edges := cfg.edges.getD []
    let actions := cfg.actions.getD []
    some { edges := edgeStates data nodes edges frame c
           nodes := nodeStates nodes actions frame c
           packets := packetStates nodes actions frame c
           labels := labelStates nodes actions frame c
           gridShift := frame % 80
           background := data.backgroundColor
           title := data.title
           subtitle := data.subtitle }

end TechSceneB

/-! ## Scene state evaluator (src/components/RemotionVideo/Scene.tsx) -/

/-- Trapezoid fade of the standard scene:
`interpolate(frame, [0, 10, d - 10, d], [0, 1, 1, 0])` with extend
extrapolation, evaluated segment-wise. -/
noncomputable def fadeOpacity (frame d : ℝ) : ℝ :=
  if frame < 10 then interpolateR frame 0 10 0 1
  else if frame < d - 10 then 1
  else interpolateR frame (d - 10) d 1 0

/-- Render description of a non-diagram scene (intro / bullet_point /
quote / outro). -/
structure StandardRender where
  background : String
  textColor : String
  entrance : ℝ
  translateY : ℝ
  opacity : ℝ
  title : String
  subtitle : String
  titleFontSize : ℚ
  showRing : Bool
  showQuotes : Bool
  ringScale : ℝ
  progressWidth : ℚ

/-- What one scene renders at one frame. -/
inductive RenderDescription where
  | tech (r : Option TechSceneB.TechRender)
  | standard (r : StandardRender)

/-- `Scene` (Scene.tsx): tech-diagram scenes delegate to the `TechScene`
imported from `./TechScene` (variant B); every other variant gets the
entrance spring (`config: {damping: 200}`), the slide-up offset
`interpolate(entrance, [0,1], [100,0])`, the trapezoid opacity, a
variant-selected title size (80 intro / 50 quote / 70 otherwise), the
decorative ring (intro) or quote glyphs (quote), and the progress bar
width `(frame / durationInFrames) * 100` percent. -/
noncomputable def evaluateScene (data : SceneData) (frame : ℤ) (c : Canvas) :
    RenderDescription :=
  if data.type = SceneType.tech_diagram then
    .tech (TechSceneB.evaluate data frame c)
  else
    let entrance := spring ⟨100, 200, 1⟩ (c.fps : ℝ) (frame : ℝ)
    .standard
      { background := data.backgroundColor
        textColor := data.textColor
        entrance := entrance
        translateY := interpolateR entrance 0 1 100 0
        opacity := fadeOpacity (frame : ℝ) (data.durationInFrames : ℝ)
        title := data.title
        subtitle := data.subtitle
        titleFontSize :=
          if data.type = SceneType.intro then 80
          else if data.type = SceneType.quote then 50 else 70
        showRing := data.type = SceneType.intro
        showQuotes := data.type = SceneType.quote
        ringScale := entrance
        progressWidth := (frame : ℚ) / (data.durationInFrames : ℚ) * 100 }

/-! ## Timeline sequencer (MainComposition, Composition.tsx)

`MainComposition` wraps scene `i` in a remotion `Sequence` whose `from`
is the running prefix sum of `durationInFrames` and whose window is the
half-open interval `[from, from + durationInFrames)`; a `Sequence`
renders its child exactly on that window, at local frame
`globalFrame - from`.  `locate` returns the index and local frame of the
active scene, or `none` when no sequence window contains the frame. -/

/-- Locate the active scene: scene 0 occupies `[0, d0)`, and the tail is
located at `f - d0` with indices shifted by one. -/
def locate : List ℤ → ℤ → Option (ℕ × ℤ)
  | [], _ => none
  | d :: ds, f =>
    if 0 ≤ f ∧ f < d then some (0, f)
    else (locate ds (f - d)).map fun p => (p.1 + 1, p.2)

/-- `offset ds i`: the prefix sum of the first `i` durations, i.e. the
`from` of the `i`-th `Sequence`. -/
def offset (ds : List ℤ) (i : ℕ) : ℤ := ((ds.take i).sum)

/-- `MainComposition` (Composition.tsx): the per-frame render is the
active scene's render, or nothing (bare black background) when no
sequence window contains the frame. -/
noncomputable def MainComposition (data : VideoConfig) (f : ℤ) :
    Option RenderDescription :=
  (locate (data.scenes.map (·.durationInFrames)) f).bind fun p =>
    (data.scenes.get? p.1).map fun sc =>
      evaluateScene sc p.2 ⟨data.width, data.height, data.fps⟩

/-! ## Evaluation traces

The host player owns the frame clock and may request frames repeatedly
and out of order.  A trace is a list of `(scene, frame, canvas)` queries
answered in order; `evalTrace` is the renderer's answer sequence. -/

/-- Answers to a sequence of host queries, in order. -/
noncomputable def evalTrace (qs : List (SceneData × ℤ × Canvas)) :
    List RenderDescription :=
  qs.map fun q => evaluateScene q.1 q.2.1 q.2.2

/-! ## Verification fixtures

Concrete inputs used by witnesses and counterexamples, taken from the
spec's own worked examples (Redis-lock scenario and the packet test
vector). -/

namespace Fixtures

/-- An intro scene. -/
def introScene : SceneData :=
  ⟨"Motionlize", "AI video", "#000000", "#ffffff", 90, SceneType.intro, none⟩

/-- A square 30fps canvas. -/
def canvas : Canvas := ⟨1080, 1080, 30⟩

/-- Packet source node, anchored at (50, 15). -/
def fromNode : DiagramNode := ⟨"a", "client", "Client", 50, 15, none⟩

/-- Packet destination node, anchored at (50, 50). -/
def toNode : DiagramNode := ⟨"b", "database", "Redis", 50, 50, none⟩

/-- The packet of the spec's interpolation test vector:
startDelay 30, duration 40, from `a` to `b`. -/
def packetAction : DiagramAction :=
  ⟨.packet, 30, 40, some "a", some "b", none, none, none⟩

/-- The highlight of the spec's window test vector:
targetId `redis`, startDelay 70, duration 20. -/
def highlightAction : DiagramAction :=
  ⟨.highlight, 70, 20, none, none, some "redis", none, none⟩

/-- The node targeted by `highlightAction`. -/
def redisNode : DiagramNode := ⟨"redis", "database", "Redis", 50, 50, none⟩

/-- A highlight with window [0, 10) targeting node `b`. -/
def earlyHighlight : DiagramAction :=
  ⟨.highlight, 0, 10, none, none, some "b", none, none⟩

/-- An edge whose `toId` resolves to no node when paired with
`[fromNode]`. -/
def danglingEdge : DiagramEdge := ⟨"a", "ghost", none, none⟩

/-- A pulse with window [0, 10) targeting node `b`. -/
def pulseAction : DiagramAction :=
  ⟨.pulse, 0, 10, none, none, some "b", none, none⟩

/-- A tech-diagram scene with no `diagramConfig` at all. -/
def techSceneNoCfg : SceneData :=
  ⟨"Arch", "Flow", "#0B0F19", "#ffffff", 120, SceneType.tech_diagram, none⟩

/-- A tech-diagram scene whose `diagramConfig` is present but carries
none of its three lists. -/
def techSceneEmptyCfg : SceneData :=
  ⟨"Arch", "Flow", "#0B0F19", "#ffffff", 120, SceneType.tech_diagram,
    some ⟨none, none, none⟩⟩

end Fixtures

end Motionlize

namespace Motionlize

/-! ## Timeline sequencer lemmas -/

/-- The zeroth sequence starts at frame 0. -/
lemma offset_zero (ds : List ℤ) : offset ds 0 = 0 := by
  simp [offset]

/-- Peeling one scene off the prefix sum. -/
lemma offset_cons_succ (d : ℤ) (ds : List ℤ) (i : ℕ) :
    offset (d :: ds) (i + 1) = d + offset ds i := by
  simp [offset]

/-- Prefix sums of positive durations are nonnegative. -/
lemma offset_nonneg (ds : List ℤ) (h : ∀ d ∈ ds, 0 < d) (i : ℕ) :
    0 ≤ offset ds i := by
  refine List.sum_nonneg ?_
  intro x hx
  exact (h x (List.take_subset i ds hx)).le

/-- Characterization of `locate` for positive durations: the answer is
`(i, f - offset i)` exactly when `f` lies on scene `i`'s half-open
sequence window. -/
lemma locate_eq_some_iff (ds : List ℤ) : ∀ (i : ℕ) (hi : i < ds.length) (f : ℤ),
    (∀ d ∈ ds, 0 < d) →
    (locate ds f = some (i, f - offset ds i) ↔
      offset ds i ≤ f ∧ f < offset ds i + ds.get ⟨i, hi⟩) := by
  induction ds with
  | nil =>
    intro i hi
    exact absurd hi (by simp)
  | cons d ds ih =>
    intro i hi f hpos
    have hd : 0 < d := hpos d (List.mem_cons_self d ds)
    have hds : ∀ x ∈ ds, 0 < x := fun x hx => hpos x (List.mem_cons_of_mem d hx)
    match i with
    | 0 =>
      simp only [offset_zero, sub_zero, List.get]
      rw [locate]
      by_cases hg : 0 ≤ f ∧ f < d
      · rw [if_pos hg]
        constructor
        · intro _
          exact ⟨hg.1, by omega⟩
        · intro _
          rfl
      · rw [if_neg hg]
        constructor
        · intro hl
          rcases Option.map_eq_some'.mp hl with ⟨p, _, hp⟩
          simp at hp
        · intro hr
          exact absurd ⟨hr.1, by omega⟩ hg
    | i + 1 =>
      have hi' : i < ds.length := by simpa using hi
      have hnn : 0 ≤ offset ds i := offset_nonneg ds hds i
      simp only [offset_cons_succ, List.get]
      rw [locate]
      by_cases hg : 0 ≤ f ∧ f < d
      · rw [if_pos hg]
        constructor
        · intro hl
          simp at hl
        · intro hr
          exfalso
          have h1 := hr.1
          omega
      · rw [if_neg hg]
        have harith : f - (d + offset ds i) = f - d - offset ds i := by ring
        rw [harith]
        have key : (locate ds (f - d)).map (fun p => (p.1 + 1, p.2)) =
            some (i + 1, f - d - offset ds i) ↔
            locate ds (f - d) = some (i, f - d - offset ds i) := by
          constructor
          · intro hl
            rcases Option.map_eq_some'.mp hl with ⟨⟨p1, p2⟩, hp1, hp2⟩
            simp only [Prod.mk.injEq] at hp2
            obtain ⟨h1, h2⟩ := hp2
            have hp1i : p1 = i := by omega
            subst hp1i
            subst h2
            exact hp1
          · intro hl
            rw [hl]
            rfl
        rw [key, ih i hi' (f - d) hds]
        omega

/-- Out-of-domain frames activate no sequence. -/
lemma locate_out_of_range (ds : List ℤ) (h : ∀ d ∈ ds, 0 < d) (f : ℤ)
    (hf : f < 0 ∨ ds.sum ≤ f) : locate ds f = none := by
  induction ds generalizing f with
  | nil => rfl
  | cons d ds ih =>
    have hd : 0 < d := h d (List.mem_cons_self d ds)
    have hds : ∀ x ∈ ds, 0 < x := fun x hx => h x (List.mem_cons_of_mem d hx)
    have hsum : 0 ≤ ds.sum := List.sum_nonneg fun x hx => (hds x hx).le
    rw [locate, if_neg (by simp at hf ⊢; omega)]
    rw [ih hds (f - d) (by simp at hf ⊢; omega)]
    rfl

/-! ## Node resolution lemmas -/

/-- A reference that matches no node id resolves to nothing. -/
lemma resolve_eq_none_of_not_mem (nodes : List DiagramNode) (nid : String)
    (h : ∀ n ∈ nodes, n.id ≠ nid) : resolve nodes nid = none := by
  rw [resolve, List.find?_eq_none]
  intro n hn
  simpa using h n hn

/-! ## Claim theorems -/

/-- C1: evaluating a scene at a frame on a canvas is referentially
transparent: the answer at any position of any query trace is a function
of that query alone, independent of call order, call count, and all
other calls — the same `(scene, frame, canvas)` triple always produces
the identical render description. -/
theorem scene_evaluation_referentially_transparent
    (qs1 qs2 : List (SceneData × ℤ × Canvas)) (i j : ℕ)
    (h : qs1[i]? = qs2[j]?) :
    (evalTrace qs1)[i]? = (evalTrace qs2)[j]? := by
  simp only [evalTrace, List.getElem?_map, h]

/-- Witness for C1: the same query answered at position 0 of one trace
and position 1 of a longer, differently ordered trace. -/
theorem scene_evaluation_referentially_transparent_witness :
    ([(Fixtures.introScene, (5 : ℤ), Fixtures.canvas)] :
        List (SceneData × ℤ × Canvas))[0]? =
      ([(Fixtures.introScene, (0 : ℤ), Fixtures.canvas),
        (Fixtures.introScene, (5 : ℤ), Fixtures.canvas)] :
        List (SceneData × ℤ × Canvas))[1]? ∧
    (evalTrace [(Fixtures.introScene, (5 : ℤ), Fixtures.canvas)])[0]? =
      (evalTrace [(Fixtures.introScene, (0 : ℤ), Fixtures.canvas),
                  (Fixtures.introScene, (5 : ℤ), Fixtures.canvas)])[1]? :=
  ⟨rfl, scene_evaluation_referentially_transparent _ _ 0 1 rfl⟩

/-- C2: sequencer offsets are prefix sums of `durationInFrames` in list
order, scene `i` occupying the half-open window
`[offset i, offset i + duration i)`; consequently global frame `d0 + d1`
lands in scene 2 at local frame 0, and `d0 + d1 - 1` lands in scene 1 at
local frame `d1 - 1`. -/
theorem timeline_offsets_are_prefix_sums :
    (∀ (ds : List ℤ), (∀ d ∈ ds, 0 < d) →
      ∀ (i : ℕ) (hi : i < ds.length) (f : ℤ),
        (locate ds f = some (i, f - offset ds i) ↔
          offset ds i ≤ f ∧ f < offset ds i + ds.get ⟨i, hi⟩)) ∧
    (∀ (d0 d1 d2 : ℤ) (ds : List ℤ), 0 < d1 → 0 < d2 →
      locate (d0 :: d1 :: d2 :: ds) (d0 + d1) = some (2, 0) ∧
      locate (d0 :: d1 :: d2 :: ds) (d0 + d1 - 1) = some (1, d1 - 1)) := by
  constructor
  · intro ds h i hi f
    exact locate_eq_some_iff ds i hi f h
  · intro d0 d1 d2 ds h1 h2
    constructor
    · rw [locate, if_neg (by omega), show d0 + d1 - d0 = d1 by ring]
      rw [locate, if_neg (by omega), show d1 - d1 = (0 : ℤ) by ring]
      rw [locate, if_pos ⟨le_refl 0, h2⟩]
      rfl
    · rw [locate, if_neg (by omega), show d0 + d1 - 1 - d0 = d1 - 1 by ring]
      rw [locate, if_pos (by omega)]
      rfl

/-- Witness for C2: durations [40, 60, 50]; frame 100 is scene 2 local
frame 0, frame 99 is scene 1 local frame 59; and frame 45 sits on scene
1's window as the characterization demands. -/
theorem timeline_offsets_are_prefix_sums_witness :
    (locate [40, 60, 50] (45 : ℤ) = some (1, 45 - offset [40, 60, 50] 1) ↔
      offset [40, 60, 50] 1 ≤ 45 ∧
        45 < offset [40, 60, 50] 1 + List.get [(40 : ℤ), 60, 50] ⟨1, by norm_num⟩) ∧
    locate [40, 60, 50] (100 : ℤ) = some (2, 0) ∧
    locate [40, 60, 50] (99 : ℤ) = some (1, 59) :=
  ⟨timeline_offsets_are_prefix_sums.1 [40, 60, 50] (by decide) 1 (by norm_num) 45,
   by
    have h := timeline_offsets_are_prefix_sums.2 40 60 50 [] (by norm_num) (by norm_num)
    exact ⟨h.1, by simpa using h.2⟩⟩

/-- C8 counterexample: with a single 10-frame scene, the sequencer does
NOT clamp out-of-domain frames to the nearest valid scene and local
frame — frame 10 (and frame -1) activates no scene at all instead of
clamping to scene 0. -/
theorem out_of_range_frames_not_clamped :
    locate [10] (10 : ℤ) = none ∧
    locate [10] (-1 : ℤ) = none ∧
    locate [10] (10 : ℤ) ≠ some (0, 9) := by
  refine ⟨by decide, by decide, by decide⟩

/-- C8 amended: for a global frame that is negative or at/beyond the end
of the last scene, the sequencer activates no scene (the composition
renders only its background); the render entry point is total and
returns this well-defined empty answer rather than failing. -/
theorem out_of_range_frames_render_no_scene :
    (∀ (ds : List ℤ) (f : ℤ), (∀ d ∈ ds, 0 < d) →
      (f < 0 ∨ ds.sum ≤ f) → locate ds f = none) ∧
    (∀ (data : VideoConfig) (f : ℤ),
      (∀ sc ∈ data.scenes, 0 < sc.durationInFrames) →
      (f < 0 ∨ (data.scenes.map (·.durationInFrames)).sum ≤ f) →
      MainComposition data f = none) := by
  constructor
  · intro ds f h hf
    exact locate_out_of_range ds h f hf
  · intro data f h hf
    have hpos : ∀ d ∈ data.scenes.map (·.durationInFrames), 0 < d := by
      intro d hd
      rcases List.mem_map.mp hd with ⟨sc, hsc, rfl⟩
      exact h sc hsc
    rw [MainComposition, locate_out_of_range _ hpos f hf]
    rfl

/-! ## Spring model lemmas -/

/-- The critically-damped envelope never exceeds 1:
`exp(-x) * (1 + x) ≤ 1` for `x ≥ 0`. -/
lemma springDecay_le_one {x : ℝ} (hx : 0 ≤ x) :
    Real.exp (-x) * (1 + x) ≤ 1 := by
  have h := Real.add_one_le_exp x
  have hpos : (0 : ℝ) < Real.exp x := Real.exp_pos x
  have h1 : 1 + x ≤ Real.exp x := by linarith
  rw [Real.exp_neg, inv_mul_le_iff₀ hpos]
  linarith

/-- The critically-damped envelope `exp(-x) * (1 + x)` is antitone on
`x ≥ 0`. -/
lemma springDecay_anti {a b : ℝ} (ha : 0 ≤ a) (hab : a ≤ b) :
    Real.exp (-b) * (1 + b) ≤ Real.exp (-a) * (1 + a) := by
  have h1 : 1 + (b - a) ≤ Real.exp (b - a) := by
    have := Real.add_one_le_exp (b - a)
    linarith
  have h3 : (1 + b) ≤ Real.exp (b - a) * (1 + a) := by
    calc 1 + b ≤ (1 + (b - a)) * (1 + a) := by nlinarith
    _ ≤ Real.exp (b - a) * (1 + a) := by
        apply mul_le_mul_of_nonneg_right h1
        linarith
  calc Real.exp (-b) * (1 + b)
      ≤ Real.exp (-b) * (Real.exp (b - a) * (1 + a)) := by
        apply mul_le_mul_of_nonneg_left h3 (Real.exp_nonneg _)
  _ = Real.exp (-a) * (1 + a) := by
        rw [← mul_assoc, ← Real.exp_add, show -b + (b - a) = -a by ring]

/-- `spring` is exactly 0 for nonpositive elapsed frames. -/
lemma spring_of_nonpos (cfg : SpringConfig) (fps : ℝ) {e : ℝ} (he : e ≤ 0) :
    spring cfg fps e = 0 := by
  rw [spring, if_pos he]

/-- `spring` in the critically/over-damped regime, past frame 0. -/
lemma spring_overdamped (cfg : SpringConfig) (fps : ℝ) {e : ℝ} (he : 0 < e)
    (hover : 4 * cfg.stiffness * cfg.mass ≤ cfg.damping ^ 2) :
    spring cfg fps e =
      1 - Real.exp (-(springOmega cfg * (e / fps))) *
        (1 + springOmega cfg * (e / fps)) := by
  rw [spring, if_neg (by linarith), if_pos hover]

/-- C9 (spec-modelled spring): the spring progress is exactly 0 for
every nonpositive elapsed frame count under every parameterization; and
for critically- or over-damped parameterizations
(`4 * stiffness * mass ≤ damping ^ 2`, e.g. the damping-200 default) it
is non-decreasing in elapsed on `elapsed ≥ 0`, never exceeds 1, and
tends to 1 as elapsed grows. -/
theorem spring_zero_before_and_monotone_overdamped :
    (∀ (cfg : SpringConfig) (fps e : ℝ), e ≤ 0 → spring cfg fps e = 0) ∧
    (∀ (cfg : SpringConfig) (fps : ℝ),
      0 < cfg.stiffness → 0 < cfg.mass → 0 < fps →
      4 * cfg.stiffness * cfg.mass ≤ cfg.damping ^ 2 →
      (∀ e1 e2 : ℝ, 0 ≤ e1 → e1 ≤ e2 →
        spring cfg fps e1 ≤ spring cfg fps e2) ∧
      (∀ e : ℝ, spring cfg fps e ≤ 1) ∧
      Filter.Tendsto (fun n : ℕ => spring cfg fps n)
        Filter.atTop (nhds 1)) := by
  constructor
  · intro cfg fps e he
    exact spring_of_nonpos cfg fps he
  · intro cfg fps hs hm hfps hover
    have homega : 0 < springOmega cfg := Real.sqrt_pos.mpr (div_pos hs hm)
    refine ⟨?_, ?_, ?_⟩
    · intro e1 e2 h0 h12
      rcases le_or_lt e1 0 with h1 | h1
      · rw [spring_of_nonpos cfg fps h1]
        rcases le_or_lt e2 0 with h2 | h2
        · rw [spring_of_nonpos cfg fps h2]
        · rw [spring_overdamped cfg fps h2 hover]
          have hx : 0 ≤ springOmega cfg * (e2 / fps) :=
            mul_nonneg homega.le (div_nonneg h2.le hfps.le)
          have := springDecay_le_one hx
          linarith
      · have h2 : 0 < e2 := lt_of_lt_of_le h1 h12
        rw [spring_overdamped cfg fps h1 hover,
          spring_overdamped cfg fps h2 hover]
        have ha : 0 ≤ springOmega cfg * (e1 / fps) :=
          mul_nonneg homega.le (div_nonneg h1.le hfps.le)
        have hab : springOmega cfg * (e1 / fps) ≤ springOmega cfg * (e2 / fps) := by
          have : e1 / fps ≤ e2 / fps := by gcongr
          exact mul_le_mul_of_nonneg_left this homega.le
        have := springDecay_anti ha hab
        linarith
    · intro e
      rcases le_or_lt e 0 with h | h
      · rw [spring_of_nonpos cfg fps h]
        norm_num
      · rw [spring_overdamped cfg fps h hover]
        have hx : 0 ≤ springOmega cfg * (e / fps) :=
          mul_nonneg homega.le (div_nonneg h.le hfps.le)
        nlinarith [Real.exp_nonneg (-(springOmega cfg * (e / fps)))]
    · have hcomp : Filter.Tendsto (fun n : ℕ => springOmega cfg * ((n : ℝ) / fps))
          Filter.atTop Filter.atTop := by
        apply Filter.Tendsto.const_mul_atTop homega
        exact Filter.Tendsto.atTop_div_const hfps tendsto_natCast_atTop_atTop
      have hdecay : Filter.Tendsto (fun y : ℝ => Real.exp (-y) * (1 + y))
          Filter.atTop (nhds 0) := by
        have h1 : Filter.Tendsto (fun y : ℝ => Real.exp (-y))
            Filter.atTop (nhds 0) := Real.tendsto_exp_neg_atTop_nhds_zero
        have h2 : Filter.Tendsto (fun y : ℝ => y * Real.exp (-y))
            Filter.atTop (nhds 0) := by
          have := Real.tendsto_pow_mul_exp_neg_atTop_nhds_zero 1
          simpa using this
        have hsum := h1.add h2
        rw [add_zero] at hsum
        apply hsum.congr
        intro y
        ring
      have hmain := hdecay.comp hcomp
      have hfinal : Filter.Tendsto (fun n : ℕ =>
          1 - Real.exp (-(springOmega cfg * ((n : ℝ) / fps))) *
            (1 + springOmega cfg * ((n : ℝ) / fps)))
          Filter.atTop (nhds 1) := by
        have hone : Filter.Tendsto (fun _ : ℕ => (1 : ℝ))
            Filter.atTop (nhds 1) := tendsto_const_nhds
        have := hone.sub hmain
        rw [sub_zero] at this
        exact this.congr fun n => rfl
      apply Filter.Tendsto.congr' _ hfinal
      refine Filter.eventually_atTop.mpr ⟨1, fun n hn => ?_⟩
      have hne : (0 : ℝ) < (n : ℝ) := by
        exact_mod_cast Nat.lt_of_lt_of_le Nat.zero_lt_one hn
      exact (spring_overdamped cfg fps hne hover).symm

/-- Witness for C9: the damping-200 default at 30 fps is over-damped;
the spring is 0 at elapsed -5, monotone between elapsed 2 and 7, and
bounded by 1 at elapsed 9. -/
theorem spring_zero_before_and_monotone_overdamped_witness :
    spring ⟨100, 200, 1⟩ 30 (-5) = 0 ∧
    spring ⟨100, 200, 1⟩ 30 2 ≤ spring ⟨100, 200, 1⟩ 30 7 ∧
    spring ⟨100, 200, 1⟩ 30 9 ≤ 1 :=
  ⟨spring_zero_before_and_monotone_overdamped.1 ⟨100, 200, 1⟩ 30 (-5) (by norm_num),
   (spring_zero_before_and_monotone_overdamped.2 ⟨100, 200, 1⟩ 30
      (by norm_num) (by norm_num) (by norm_num) (by norm_num)).1 2 7
      (by norm_num) (by norm_num),
   (spring_zero_before_and_monotone_overdamped.2 ⟨100, 200, 1⟩ 30
      (by norm_num) (by norm_num) (by norm_num) (by norm_num)).2.1 9⟩

/-- Witness for C8 amended: a two-scene timeline, queried one frame past
its end and at frame -3. -/
theorem out_of_range_frames_render_no_scene_witness :
    locate [10, 20] (30 : ℤ) = none ∧
    MainComposition
      ⟨"t", "m", 90, [Fixtures.introScene], 1080, 1080, 30⟩ (-3) = none :=
  ⟨out_of_range_frames_render_no_scene.1 [10, 20] 30 (by decide) (by norm_num),
   out_of_range_frames_render_no_scene.2 _ (-3)
     (by intro sc hsc; simp [Fixtures.introScene] at hsc; rw [hsc]; norm_num)
     (by norm_num)⟩

/-- C5: the spec's highlight test vector: in both TechScene variants the
action `{highlight, targetId: redis, startDelay: 70, duration: 20}` is
active on its target exactly for frames in [70, 90) — so active nowhere
at frame 69 or frame 90. -/
theorem highlight_active_exactly_on_window (frame : ℤ) :
    ((TechSceneA.activeHighlight [Fixtures.highlightAction]
        Fixtures.redisNode frame).isSome ↔ 70 ≤ frame ∧ frame < 90) ∧
    ((TechSceneB.activeAction [Fixtures.highlightAction]
        Fixtures.redisNode frame).isSome ↔ 70 ≤ frame ∧ frame < 90) := by
  constructor
  · rw [TechSceneA.activeHighlight, List.find?_isSome]
    simp only [List.mem_singleton, exists_eq_left, Fixtures.highlightAction,
      Fixtures.redisNode, Bool.and_eq_true, beq_self_eq_true, true_and,
      decide_eq_true_eq]
    omega
  · rw [TechSceneB.activeAction, List.find?_isSome]
    simp only [List.mem_singleton, exists_eq_left, Fixtures.highlightAction,
      Fixtures.redisNode, Bool.and_eq_true, Bool.or_eq_true,
      beq_self_eq_true, true_or, true_and, decide_eq_true_eq]
    omega

/-- C3 counterexample: the packet guard is `frame > startDelay + duration`
(strict), so at the window's right endpoint the packet is still rendered:
with startDelay 30 and duration 40, frame 70 = 30 + 40 renders the packet
(parked at its destination anchor (540, 540) on a 1080-square canvas),
contradicting absence at every frame at or after `startDelay + duration`. -/
theorem packet_rendered_at_window_right_endpoint :
    TechSceneB.packetStates [Fixtures.fromNode, Fixtures.toNode]
      [Fixtures.packetAction] 70 Fixtures.canvas =
      [{ x := 540, y := 540, color := "#fff", label := none }] ∧
    TechSceneB.packetStates [Fixtures.fromNode, Fixtures.toNode]
      [Fixtures.packetAction] 70 Fixtures.canvas ≠ [] := by
  have hra : resolve [Fixtures.fromNode, Fixtures.toNode] "a" =
      some Fixtures.fromNode := rfl
  have hrb : resolve [Fixtures.fromNode, Fixtures.toNode] "b" =
      some Fixtures.toNode := rfl
  have h : TechSceneB.packetStates [Fixtures.fromNode, Fixtures.toNode]
      [Fixtures.packetAction] 70 Fixtures.canvas =
      [{ x := 540, y := 540, color := "#fff", label := none }] := by
    simp only [TechSceneB.packetStates, List.filterMap_cons, List.filterMap_nil,
      TechSceneB.packetEntry, Fixtures.packetAction, hra, hrb]
    norm_num [Fixtures.fromNode, Fixtures.toNode, Fixtures.canvas,
      interpolateQ, toPx, min_def, max_def]
  exact ⟨h, by rw [h]; simp⟩

/-- C3 amended: a packet action with both endpoints resolvable is
rendered exactly on the CLOSED frame window
`startDelay ≤ localFrame ≤ startDelay + duration` (in both TechScene
variants): before the window the packet does not exist, and at every
frame strictly after `startDelay + duration` it is absent (it vanishes
rather than fading). -/
theorem packet_rendered_exactly_on_closed_window
    (nodes : List DiagramNode) (a : DiagramAction) (frame : ℤ) (c : Canvas)
    (fid tid : String) (fromN toN : DiagramNode)
    (htype : a.type = ActionType.packet)
    (hfrom : a.fromId = some fid) (hto : a.toId = some tid)
    (hresf : resolve nodes fid = some fromN)
    (hrest : resolve nodes tid = some toN) :
    ((TechSceneB.packetEntry nodes frame c a).isSome ↔
      a.startDelay ≤ frame ∧ frame ≤ a.startDelay + a.duration) ∧
    ((TechSceneA.actionEntry nodes frame c a).isSome ↔
      a.startDelay ≤ frame ∧ frame ≤ a.startDelay + a.duration) := by
  constructor
  · rw [TechSceneB.packetEntry]
    simp only [hfrom, hto]
    split_ifs with h0 h1 h2
    · exact absurd htype h0
    · simp only [Option.isSome_none, Bool.false_eq_true, false_iff]
      omega
    · simp only [Option.isSome_none, Bool.false_eq_true, false_iff]
      omega
    · simp only [hresf, hrest, Option.isSome_some, true_iff]
      omega
  · rw [TechSceneA.actionEntry]
    split_ifs with h0 h1
    · simp only [Option.isSome_none, Bool.false_eq_true, false_iff]
      omega
    · obtain ⟨h1a, -⟩ := h1
      simp only [Option.isSome_none, Bool.false_eq_true, false_iff]
      omega
    · have h1a : ¬(a.startDelay + a.duration < frame) := fun hh => h1 ⟨hh, htype⟩
      simp only [hfrom, hto, hresf, hrest, Option.isSome_some, true_iff]
      omega

/-- Witness for C3 amended: the spec's packet vector, frame 35, with
both endpoints resolving against the two fixture nodes. -/
theorem packet_rendered_exactly_on_closed_window_witness :
    ((TechSceneB.packetEntry [Fixtures.fromNode, Fixtures.toNode] 35
        Fixtures.canvas Fixtures.packetAction).isSome ↔
      (30 : ℤ) ≤ 35 ∧ (35 : ℤ) ≤ 30 + 40) ∧
    ((TechSceneA.actionEntry [Fixtures.fromNode, Fixtures.toNode] 35
        Fixtures.canvas Fixtures.packetAction).isSome ↔
      (30 : ℤ) ≤ 35 ∧ (35 : ℤ) ≤ 30 + 40) :=
  packet_rendered_exactly_on_closed_window
    [Fixtures.fromNode, Fixtures.toNode] Fixtures.packetAction 35
    Fixtures.canvas "a" "b" Fixtures.fromNode Fixtures.toNode
    rfl rfl rfl (by decide) (by decide)

/-- C4: the spec's packet interpolation vector, on every canvas, in both
TechScene variants: the packet from the node anchored at (50, 15) to the
node anchored at (50, 50) with startDelay 30 and duration 40 sits at the
source anchor at frame 30, at the destination anchor at frame 70, and at
the exact midpoint (50, 32.5) (percentages mapped to pixels) at frame
50. -/
theorem packet_positions_linear_interpolation (c : Canvas) :
    TechSceneB.packetStates [Fixtures.fromNode, Fixtures.toNode]
        [Fixtures.packetAction] 30 c =
      [{ x := toPx 50 c.width, y := toPx 15 c.height,
         color := "#fff", label := none }] ∧
    TechSceneB.packetStates [Fixtures.fromNode, Fixtures.toNode]
        [Fixtures.packetAction] 50 c =
      [{ x := toPx 50 c.width, y := toPx (65 / 2) c.height,
         color := "#fff", label := none }] ∧
    TechSceneB.packetStates [Fixtures.fromNode, Fixtures.toNode]
        [Fixtures.packetAction] 70 c =
      [{ x := toPx 50 c.width, y := toPx 50 c.height,
         color := "#fff", label := none }] ∧
    TechSceneA.actionEffects [Fixtures.fromNode, Fixtures.toNode]
        [Fixtures.packetAction] 30 c =
      [.packet { x := toPx 50 c.width, y := toPx 15 c.height,
                 color := "#ffffff", label := "DATA" }] ∧
    TechSceneA.actionEffects [Fixtures.fromNode, Fixtures.toNode]
        [Fixtures.packetAction] 50 c =
      [.packet { x := toPx 50 c.width, y := toPx (65 / 2) c.height,
                 color := "#ffffff", label := "DATA" }] ∧
    TechSceneA.actionEffects [Fixtures.fromNode, Fixtures.toNode]
        [Fixtures.packetAction] 70 c =
      [.packet { x := toPx 50 c.width, y := toPx 50 c.height,
                 color := "#ffffff", label := "DATA" }] := by
  have hra : resolve [Fixtures.fromNode, Fixtures.toNode] "a" =
      some Fixtures.fromNode := rfl
  have hrb : resolve [Fixtures.fromNode, Fixtures.toNode] "b" =
      some Fixtures.toNode := rfl
  refine ⟨?_, ?_, ?_, ?_, ?_, ?_⟩ <;>
    · simp only [TechSceneB.packetStates, TechSceneA.actionEffects,
        List.filterMap_cons, List.filterMap_nil, TechSceneB.packetEntry,
        TechSceneA.actionEntry, Fixtures.packetAction, hra, hrb]
      norm_num [Fixtures.fromNode, Fixtures.toNode, interpolateQ, toPx,
        min_def, max_def]
      try ring_nf

/-- C6: a node-id reference (`fromId`, `toId`, or `targetId`) that does
not resolve to an existing node produces no rendered entry, in either
TechScene variant and for every action kind; in particular an edge with
an unresolvable `toId` yields no edge-state entry.  Totality of the
evaluators means no error is ever raised. -/
theorem unresolved_references_render_nothing
    (data : SceneData) (nodes : List DiagramNode) (frame : ℤ) (c : Canvas)
    (i : ℕ) (edge : DiagramEdge) (a : DiagramAction) (rid : String) :
    ((∀ n ∈ nodes, n.id ≠ edge.fromId) ∨ (∀ n ∈ nodes, n.id ≠ edge.toId) →
      TechSceneA.edgeEntry data nodes frame c i edge = none ∧
      TechSceneB.edgeEntry data nodes frame c i edge = none) ∧
    (a.type = ActionType.packet →
      (a.fromId = some rid ∨ a.toId = some rid) →
      (∀ n ∈ nodes, n.id ≠ rid) →
      TechSceneB.packetEntry nodes frame c a = none ∧
      TechSceneA.actionEntry nodes frame c a = none) ∧
    (a.type = ActionType.show_label →
      a.targetId = some rid →
      (∀ n ∈ nodes, n.id ≠ rid) →
      TechSceneB.labelEntry nodes frame c a = none ∧
      TechSceneA.actionEntry nodes frame c a = none) ∧
    ((a.type = ActionType.highlight ∨ a.type = ActionType.pulse) →
      a.targetId = some rid →
      (∀ n ∈ nodes, n.id ≠ rid) →
      ∀ node ∈ nodes,
        TechSceneA.activeHighlight [a] node frame = none ∧
        TechSceneB.activeAction [a] node frame = none) := by
  refine ⟨?_, ?_, ?_, ?_⟩
  · intro h
    have hres : resolve nodes edge.fromId = none ∨
        resolve nodes edge.toId = none := by
      rcases h with h | h
      · exact Or.inl (resolve_eq_none_of_not_mem nodes _ h)
      · exact Or.inr (resolve_eq_none_of_not_mem nodes _ h)
    rcases hf : resolve nodes edge.fromId with _ | u <;>
      rcases ht : resolve nodes edge.toId with _ | v <;>
      simp_all [TechSceneA.edgeEntry, TechSceneB.edgeEntry]
  · intro htype hor hunres
    have hres : resolve nodes rid = none :=
      resolve_eq_none_of_not_mem nodes rid hunres
    constructor
    · rcases hor with hf | ht
      · rw [TechSceneB.packetEntry, hf]
        rcases htid : a.toId with _ | tid
        · rfl
        · simp only [hres]
          split_ifs <;> rfl
      · rw [TechSceneB.packetEntry, ht]
        rcases hfid : a.fromId with _ | fid
        · rfl
        · rcases hr : resolve nodes fid with _ | u <;>
            · simp only [hres, hr]
              split_ifs <;> rfl
    · rw [TechSceneA.actionEntry]
      split_ifs with h0 h1
      · rfl
      · rfl
      · rcases hor with hf | ht
        · rw [hf]
          rcases htid : a.toId with _ | tid
          · rfl
          · simp only [hres]
        · rw [ht]
          rcases hfid : a.fromId with _ | fid
          · rfl
          · rcases hr : resolve nodes fid with _ | u <;> simp only [hres, hr]
  · intro htype htarget hunres
    have hres : resolve nodes rid = none :=
      resolve_eq_none_of_not_mem nodes rid hunres
    constructor
    · rw [TechSceneB.labelEntry, htarget]
      simp only [hres]
      split_ifs <;> rfl
    · rw [TechSceneA.actionEntry]
      split_ifs with h0 h1 h2
      · rfl
      · rfl
      · rw [htype] at h2
        exact absurd h2 (by decide)
      · rw [htarget]
        simp only [hres]
  · intro _ htarget hunres node hnode
    have hne : node.id ≠ rid := hunres node hnode
    constructor
    · refine List.find?_eq_none.mpr ?_
      intro x hx
      rw [List.mem_singleton] at hx
      subst hx
      simp [htarget, Ne.symm hne]
    · refine List.find?_eq_none.mpr ?_
      intro x hx
      rw [List.mem_singleton] at hx
      subst hx
      simp [htarget, Ne.symm hne]

/-- Witness for C6: the dangling edge (toId "ghost") against the single
fixture node, an unresolvable packet, an unresolvable popup label, and
an unresolvable highlight. -/
theorem unresolved_references_render_nothing_witness :
    (TechSceneA.edgeEntry Fixtures.introScene [Fixtures.fromNode] 5
        Fixtures.canvas 0 Fixtures.danglingEdge = none ∧
      TechSceneB.edgeEntry Fixtures.introScene [Fixtures.fromNode] 5
        Fixtures.canvas 0 Fixtures.danglingEdge = none) ∧
    (TechSceneB.packetEntry [Fixtures.fromNode] 40 Fixtures.canvas
        Fixtures.packetAction = none ∧
      TechSceneA.actionEntry [Fixtures.fromNode] 40 Fixtures.canvas
        Fixtures.packetAction = none) ∧
    (TechSceneA.activeHighlight [Fixtures.highlightAction]
        Fixtures.fromNode 75 = none ∧
      TechSceneB.activeAction [Fixtures.highlightAction]
        Fixtures.fromNode 75 = none) :=
  ⟨(unresolved_references_render_nothing Fixtures.introScene
      [Fixtures.fromNode] 5 Fixtures.canvas 0 Fixtures.danglingEdge
      Fixtures.packetAction "ghost").1
      (Or.inr (by intro n hn; simp [Fixtures.fromNode] at hn; rw [hn]; decide)),
   (unresolved_references_render_nothing Fixtures.introScene
      [Fixtures.fromNode] 40 Fixtures.canvas 0 Fixtures.danglingEdge
      Fixtures.packetAction "b").2.1 rfl (Or.inr rfl)
      (by intro n hn; simp [Fixtures.fromNode] at hn; rw [hn]; decide),
   (unresolved_references_render_nothing Fixtures.introScene
      [Fixtures.fromNode] 75 Fixtures.canvas 0 Fixtures.danglingEdge
      Fixtures.highlightAction "redis").2.2.2 (Or.inl rfl) rfl
      (by intro n hn; simp [Fixtures.fromNode] at hn; rw [hn]; decide)
      Fixtures.fromNode (List.mem_singleton.mpr rfl)⟩

/-- C7: a tech-diagram scene with no `diagramConfig` renders nothing
(the guard `if (!data.diagramConfig) return null` in both variants), and
one whose config carries none of its three lists renders an empty
diagram: no edge states, no node states, and no action effects.  The
evaluators are total, so evaluation never fails at any frame. -/
theorem missing_diagram_config_renders_empty
    (data : SceneData) (frame : ℤ) (c : Canvas) :
    (data.diagramConfig = none →
      TechSceneA.evaluate data frame c = none ∧
      TechSceneB.evaluate data frame c = none) ∧
    (∀ cfg : DiagramConfig, data.diagramConfig = some cfg →
      cfg.nodes = none → cfg.edges = none → cfg.actions = none →
      (∃ ra : TechSceneA.TechRender,
        TechSceneA.evaluate data frame c = some ra ∧
        ra.edges = [] ∧ ra.nodes = [] ∧ ra.effects = []) ∧
      (∃ rb : TechSceneB.TechRender,
        TechSceneB.evaluate data frame c = some rb ∧
        rb.edges = [] ∧ rb.nodes = [] ∧ rb.packets = [] ∧
        rb.labels = [])) := by
  constructor
  · intro h
    constructor
    · rw [TechSceneA.evaluate, h]
    · rw [TechSceneB.evaluate, h]
  · intro cfg hcfg hn he ha
    constructor
    · simp only [TechSceneA.evaluate, hcfg, hn, he, ha, Option.getD_none]
      exact ⟨_, rfl, rfl, rfl, rfl⟩
    · simp only [TechSceneB.evaluate, hcfg, hn, he, ha, Option.getD_none]
      exact ⟨_, rfl, rfl, rfl, rfl, rfl⟩

/-- Witness for C7: the two fixture scenes — config absent, and config
present with all three lists absent. -/
theorem missing_diagram_config_renders_empty_witness :
    (TechSceneA.evaluate Fixtures.techSceneNoCfg 0 Fixtures.canvas = none ∧
      TechSceneB.evaluate Fixtures.techSceneNoCfg 0 Fixtures.canvas = none) ∧
    (∃ rb : TechSceneB.TechRender,
      TechSceneB.evaluate Fixtures.techSceneEmptyCfg 0 Fixtures.canvas =
        some rb ∧
      rb.edges = [] ∧ rb.nodes = [] ∧ rb.packets = [] ∧ rb.labels = []) :=
  ⟨(missing_diagram_config_renders_empty Fixtures.techSceneNoCfg 0
      Fixtures.canvas).1 rfl,
   ((missing_diagram_config_renders_empty Fixtures.techSceneEmptyCfg 0
      Fixtures.canvas).2 ⟨none, none, none⟩ rfl rfl rfl rfl).2⟩

/-- C10 counterexample: in the cyberpunk TechScene the emphasis is
additive, not multiplicative.  Node index 1 at frame 3 has entrance
scale exactly 0 (its staggered spring has not started), yet with an
active highlight its rendered scale is 0.15 — no multiplicative factor
applied to an entrance scale of 0 can produce a nonzero scale. -/
theorem node_emphasis_not_multiplicative :
    TechSceneB.nodeScale [Fixtures.earlyHighlight] Fixtures.toNode 3
      Fixtures.canvas 1 = 0.15 ∧
    TechSceneB.entranceScale 3 Fixtures.canvas 1 = 0 := by
  have hent : TechSceneB.entranceScale 3 Fixtures.canvas 1 = 0 := by
    norm_num [TechSceneB.entranceScale, spring, interpolateR]
  have hact : TechSceneB.activeAction [Fixtures.earlyHighlight]
      Fixtures.toNode 3 = some Fixtures.earlyHighlight := rfl
  refine ⟨?_, hent⟩
  simp only [TechSceneB.nodeScale, hact]
  rw [if_neg (fun h => ActionType.noConfusion h)]
  rw [hent]
  norm_num

/-- C10 amended: a node targeted by an active highlight/pulse action is
emphasized, but the composition differs per variant: in the
Composition.tsx variant the entrance scale is multiplied by 1.2 for an
active highlight; in the cyberpunk (part_000) variant — the only one
with pulse — the emphasis is additive: entrance scale plus 0.15 for any
active highlight/pulse, plus the oscillation
`sin((localFrame - startDelay) * 0.5) * 0.1` when that action is a
pulse. -/
theorem node_emphasis_formulas
    (actions : List DiagramAction) (node : DiagramNode) (frame : ℤ)
    (c : Canvas) (i : ℕ) (a : DiagramAction) :
    ((TechSceneA.activeHighlight actions node frame).isSome →
      TechSceneA.nodeScale actions node frame c i =
        TechSceneA.entranceScale frame c i * 1.2) ∧
    (TechSceneB.activeAction actions node frame = some a →
      (a.type = ActionType.highlight →
        TechSceneB.nodeScale actions node frame c i =
          TechSceneB.entranceScale frame c i + 0.15) ∧
      (a.type = ActionType.pulse →
        TechSceneB.nodeScale actions node frame c i =
          TechSceneB.entranceScale frame c i + 0.15 +
            Real.sin (((frame : ℝ) - (a.startDelay : ℝ)) * 0.5) * 0.1)) := by
  constructor
  · intro h
    rw [TechSceneA.nodeScale, if_pos h]
  · intro hsome
    constructor
    · intro ht
      simp only [TechSceneB.nodeScale, hsome]
      rw [if_neg (by simp [ht])]
      ring
    · intro ht
      simp only [TechSceneB.nodeScale, hsome]
      rw [if_pos ht]

/-- Witness for C10 amended: an active highlight in variant A at frame
75, and an active highlight and an active pulse in variant B at frame
3. -/
theorem node_emphasis_formulas_witness :
    TechSceneA.nodeScale [Fixtures.highlightAction] Fixtures.redisNode 75
        Fixtures.canvas 0 =
      TechSceneA.entranceScale 75 Fixtures.canvas 0 * 1.2 ∧
    TechSceneB.nodeScale [Fixtures.earlyHighlight] Fixtures.toNode 3
        Fixtures.canvas 1 =
      TechSceneB.entranceScale 3 Fixtures.canvas 1 + 0.15 ∧
    TechSceneB.nodeScale [Fixtures.pulseAction] Fixtures.toNode 3
        Fixtures.canvas 1 =
      TechSceneB.entranceScale 3 Fixtures.canvas 1 + 0.15 +
        Real.sin ((((3 : ℤ) : ℝ) -
          ((Fixtures.pulseAction.startDelay : ℤ) : ℝ)) * 0.5) * 0.1 :=
  ⟨(node_emphasis_formulas [Fixtures.highlightAction] Fixtures.redisNode 75
      Fixtures.canvas 0 Fixtures.highlightAction).1 rfl,
   ((node_emphasis_formulas [Fixtures.earlyHighlight] Fixtures.toNode 3
      Fixtures.canvas 1 Fixtures.earlyHighlight).2 rfl).1 rfl,
   ((node_emphasis_formulas [Fixtures.pulseAction] Fixtures.toNode 3
      Fixtures.canvas 1 Fixtures.pulseAction).2 rfl).2 rfl⟩

end Motionlize
